import Mathlib

/-!
Verification of the offline synchronization engine of the offline-media-pwa
repository: a shallow embedding of the queue manager (db.js), the sync
coordinator (sync.js), the transfer protocol (api.js) and the storage
utilities (utils.js), together with theorems about the claims of the
specification.  Machine integers of the source are modelled as Nat
(sizes, counters) and the JavaScript number results of Math.round as Int
computed through exact rational arithmetic.
-/

namespace OfflineMediaPWA

/-- The SYNC_STATUS enumeration of sync.js. -/
inductive SyncStatus
  | idle
  | syncing
  | success
  | error
deriving DecidableEq, Repr

/-- The status strings a queue item can carry in db.js and sync.js. -/
inductive ItemStatus
  | pending
  | uploading
  | synced
  | failed
deriving DecidableEq, Repr

/-- A persisted media-queue entry, as built by enqueueMedia in db.js.
The raw payload bytes are represented by their length fileSize, which is
the only aspect of the payload the sync logic inspects. -/
structure QueueItem where
  id : Nat
  submissionId : Nat
  fileName : String
  fileSize : Nat
  status : ItemStatus
  attempts : Nat
  maxAttempts : Nat
  error : Option String
  useChunked : Bool
  uploadProgress : Int
  bytesUploaded : Nat
deriving DecidableEq, Repr

/-- A persisted record, as built by createRecord in db.js; mediaCount is
the length of the stored mediaFiles metadata list. -/
structure Record where
  id : Nat
  mediaCount : Nat
  synced : Bool
deriving DecidableEq, Repr

/-- JavaScript defaulting `x || d` for a possibly-absent numeric field:
both undefined and 0 are falsy. -/
def jsOrNat (x : Option Nat) (d : Nat) : Nat :=
  match x with
  | none => d
  | some n => if n = 0 then d else n

/-- The argument object accepted by enqueueMedia in db.js. -/
structure EnqueueMediaArgs where
  submissionId : Nat
  fileName : String
  fileSize : Nat
  status : Option ItemStatus
  attempts : Option Nat
  maxAttempts : Option Nat
  useChunked : Option Bool
deriving Repr

/-- enqueueMedia from db.js: builds the stored item, defaulting status to
pending, attempts to 0, maxAttempts to 5 and useChunked to false via the
JavaScript falsy-defaulting operator.  The store-assigned key is id. -/
def enqueueMedia (id : Nat) (q : EnqueueMediaArgs) : QueueItem :=
  { id := id
    submissionId := q.submissionId
    fileName := q.fileName
    fileSize := q.fileSize
    status := q.status.getD .pending
    attempts := q.attempts.getD 0
    maxAttempts := jsOrNat q.maxAttempts 5
    error := none
    useChunked := q.useChunked.getD false
    uploadProgress := 0
    bytesUploaded := 0 }

/-- The 10 MiB threshold of shouldUseChunkedUpload in api.js. -/
def LARGE_FILE_THRESHOLD : Nat := 10 * 1024 * 1024

/-- shouldUseChunkedUpload from api.js: files strictly larger than the
threshold use the chunked path. -/
def shouldUseChunkedUpload (fileSize : Nat) : Bool :=
  decide (fileSize > LARGE_FILE_THRESHOLD)

/-- The 5 MiB chunk size of api.js. -/
def CHUNK_SIZE : Nat := 5 * 1024 * 1024

/-- One media file handed to enqueueSubmission (name and byte size). -/
structure MediaFile where
  name : String
  size : Nat
deriving DecidableEq, Repr

/-- The persisted contents of the durable store: the records store and
the mediaQueue store of db.js. -/
structure Store where
  records : List Record
  queue : List QueueItem
deriving DecidableEq, Repr

/-- The result object of checkStorageAvailability in utils.js. -/
structure StorageCheck where
  enough : Bool
  available : Nat
  needed : Nat
deriving DecidableEq, Repr

/-- checkStorageAvailability from utils.js. -/
def checkStorageAvailability (available fileSize : Nat) : StorageCheck :=
  { enough := decide (fileSize ≤ available)
    available := available
    needed := fileSize }

/-- Errors surfaced by enqueueSubmission: the quota error thrown before
any write, and a durable-store write rejection. -/
inductive EnqueueError
  | quotaExceeded (available needed : Nat)
  | storeWriteFailed
deriving DecidableEq, Repr

/-- Outcome of enqueueSubmission: the store contents afterwards together
with the value returned or error thrown. -/
structure EnqueueOutcome where
  store : Store
  result : Except EnqueueError Nat
deriving Repr

/-- The queue item created for one file by enqueueSubmission in sync.js:
status pending, attempts and maxAttempts left to their defaults, and the
chunking flag precomputed from the file size. -/
def enqueuedItem (id submissionId : Nat) (f : MediaFile) : QueueItem :=
  enqueueMedia id
    { submissionId := submissionId
      fileName := f.name
      fileSize := f.size
      status := some .pending
      attempts := none
      maxAttempts := none
      useChunked := some (shouldUseChunkedUpload f.size) }

/-- enqueueSubmission from sync.js.  The storage budget is checked first;
on failure the quota error is thrown before anything is written.  Then
createRecord runs, then one enqueueMedia per file under Promise.all.
Each durable-store write can independently fail, which writeOk models:
writeOk 0 decides createRecord, writeOk (k+1) decides the enqueueMedia of
file k.  Writes that succeed persist even when a sibling write fails,
because the source has no rollback: the returned store keeps them. -/
def enqueueSubmission (available : Nat) (files : List MediaFile)
    (recordId : Nat) (writeOk : Nat → Bool) (st : Store) : EnqueueOutcome :=
  let totalSize := files.foldl (fun sum f => sum + f.size) 0
  let storageCheck := checkStorageAvailability available totalSize
  if !storageCheck.enough then
    { store := st
      result := .error (.quotaExceeded storageCheck.available storageCheck.needed) }
  else if !writeOk 0 then
    { store := st, result := .error .storeWriteFailed }
  else
    let record : Record := { id := recordId, mediaCount := files.length, synced := false }
    let st1 : Store := { st with records := st.records ++ [record] }
    let persisted := (files.enum.filter (fun p => writeOk (p.1 + 1))).map
      (fun p => enqueuedItem p.1 recordId p.2)
    let st2 : Store := { st1 with queue := st1.queue ++ persisted }
    if files.enum.all (fun p => writeOk (p.1 + 1)) then
      { store := st2, result := .ok recordId }
    else
      { store := st2, result := .error .storeWriteFailed }

/-- checkAndUpdateRecordSyncStatus from sync.js, acting on the queue items
whose submissionId matches the record: the record is marked synced when
every such item has status synced (vacuously when there are none). -/
def checkAndUpdateRecordSyncStatus (queueItems : List QueueItem) (rec : Record) : Record :=
  if queueItems.all (fun it => it.status == .synced) then
    { rec with synced := true }
  else
    rec

/-- The per-item effect of retryFailedItems in sync.js: only items with
status failed and attempts strictly below maxAttempts are reset to
pending with their error cleared; all other items are untouched. -/
def retryFailedStep (it : QueueItem) : QueueItem :=
  if it.status = .failed ∧ it.attempts < it.maxAttempts then
    { it with status := .pending, error := none }
  else
    it

/-- retryFailedItems from sync.js, restricted to its store mutation. -/
def retryFailedItems (items : List QueueItem) : List QueueItem :=
  items.map retryFailedStep

/-- JavaScript Math.round on a nonnegative exact value: round half away
from zero, i.e. the floor of x + 1/2. -/
def jsRound (x : ℚ) : ℤ :=
  ⌊x + 1 / 2⌋

/-- The percentage computed by createProgressCallback in sync.js:
Math.round of bytesUploaded / totalBytes * 100. -/
def progressPercent (bytesUploaded totalBytes : Nat) : ℤ :=
  jsRound ((bytesUploaded : ℚ) / (totalBytes : ℚ) * 100)

/-- Total chunk count of uploadMediaChunked in api.js:
Math.ceil of fileSize / CHUNK_SIZE, as exact ceiling division. -/
def totalChunks (fileSize : Nat) : Nat :=
  (fileSize + CHUNK_SIZE - 1) / CHUNK_SIZE

/-- Byte offset at which the chunk of the given index starts. -/
def chunkStart (chunkIndex : Nat) : Nat :=
  chunkIndex * CHUNK_SIZE

/-- Exclusive end offset of the chunk of the given index:
Math.min of start + CHUNK_SIZE and fileSize. -/
def chunkEnd (fileSize chunkIndex : Nat) : Nat :=
  min (chunkStart chunkIndex + CHUNK_SIZE) fileSize

/-- The first update of syncQueueItem in sync.js: status uploading,
attempts incremented, progress counters reset. -/
def beginUpload (it : QueueItem) : QueueItem :=
  { it with
    status := .uploading
    attempts := it.attempts + 1
    uploadProgress := 0
    bytesUploaded := 0 }

/-- The success update of syncQueueItem: status synced, progress 100. -/
def markSynced (it : QueueItem) : QueueItem :=
  { it with status := .synced, uploadProgress := 100 }

/-- The catch-block update of syncQueueItem.  The source recomputes
newAttempts from the stale in-memory item as its pre-increment attempts
plus one, which equals the attempts persisted by beginUpload, so the
field keeps its current value; shouldRetry compares that same value with
maxAttempts. -/
def markFailure (msg : String) (it : QueueItem) : QueueItem :=
  { it with
    status := if it.attempts < it.maxAttempts then .pending else .failed
    attempts := it.attempts
    error := some msg
    uploadProgress := 0 }

/-- The per-chunk persistence performed by createProgressCallback:
uploadProgress and bytesUploaded written onto the queue item. -/
def progressUpdate (bytesUploaded totalBytes : Nat) (it : QueueItem) : QueueItem :=
  { it with
    uploadProgress := progressPercent bytesUploaded totalBytes
    bytesUploaded := bytesUploaded }

/-- The update after a whole-payload upload in syncQueueItem:
uploadProgress 100 and bytesUploaded set to the file size. -/
def wholeUploadProgress (it : QueueItem) : QueueItem :=
  { it with uploadProgress := 100, bytesUploaded := it.fileSize }

/-- The mode chosen at the top of each attempt in syncQueueItem:
the stored flag, or the size-based default recomputed on the file that
was rebuilt from the stored bytes (so its size is the stored fileSize). -/
def useChunkedForAttempt (it : QueueItem) : Bool :=
  it.useChunked || shouldUseChunkedUpload it.fileSize

/-- The value syncQueueItem resolves with. -/
structure SyncItemResult where
  success : Bool
  itemId : Nat
deriving DecidableEq, Repr

/-- syncQueueItem from sync.js, as a function of the transfer verdict:
the item enters uploading with attempts incremented, then is marked
synced on success, or — in the catch block, which absorbs the thrown
transfer error — marked pending or failed according to the attempt
ceiling.  The result records success and is returned, never thrown. -/
def syncQueueItem (outcome : Bool) (it : QueueItem) : SyncItemResult × QueueItem :=
  let up := beginUpload it
  if outcome then
    ({ success := true, itemId := it.id }, markSynced up)
  else
    ({ success := false, itemId := it.id }, markFailure "upload failed" up)

/-- The per-item states reachable through enqueueSubmission and the sync
coordinator of sync.js: enqueue creates a pending item; the coordinator
picks up pending items, moves them through uploading to synced or back
to pending or to failed; progress writes happen while uploading; and
retryFailedItems may run at any time. -/
inductive Reachable : QueueItem → Prop
  | enqueued (id submissionId : Nat) (f : MediaFile) :
      Reachable (enqueuedItem id submissionId f)
  | beginAttempt (it : QueueItem) :
      Reachable it → it.status = .pending → Reachable (beginUpload it)
  | uploadSucceeded (it : QueueItem) :
      Reachable it → it.status = .uploading → Reachable (markSynced it)
  | uploadFailed (it : QueueItem) (msg : String) :
      Reachable it → it.status = .uploading → Reachable (markFailure msg it)
  | progressPersisted (it : QueueItem) (bytesUploaded totalBytes : Nat) :
      Reachable it → it.status = .uploading →
      Reachable (progressUpdate bytesUploaded totalBytes it)
  | wholeProgress (it : QueueItem) :
      Reachable it → it.status = .uploading → Reachable (wholeUploadProgress it)
  | retried (it : QueueItem) :
      Reachable it → Reachable (retryFailedStep it)

/-- The inductive invariant maintained by the coordinator transitions. -/
def ItemInv (it : QueueItem) : Prop :=
  it.attempts ≤ it.maxAttempts ∧
  (it.status = .pending → it.attempts < it.maxAttempts) ∧
  (it.status = .failed → it.attempts = it.maxAttempts)

/-- The counts object returned by syncQueue. -/
structure SyncPassResult where
  synced : Nat
  failed : Nat
deriving DecidableEq, Repr

/-- The coordinator state visible to syncQueue: the module-level sync
status flag and the persisted queue items. -/
structure CoordinatorState where
  syncStatus : SyncStatus
  items : List QueueItem
deriving Repr

/-- syncQueue from sync.js.  It returns zero counts without touching
anything when offline or when a pass is already running; otherwise it
fetches the pending items, settles every one of them independently
(outcome gives the transfer verdict of each item, looked up by id), counts
fulfilled successes, and publishes the final status. -/
def syncQueue (online : Bool) (outcome : Nat → Bool) (s : CoordinatorState) :
    SyncPassResult × CoordinatorState :=
  if !online then
    ({ synced := 0, failed := 0 }, s)
  else if s.syncStatus = .syncing then
    ({ synced := 0, failed := 0 }, s)
  else
    let pendingItems := s.items.filter (fun it => it.status == .pending)
    if pendingItems.isEmpty then
      ({ synced := 0, failed := 0 }, { s with syncStatus := .success })
    else
      let items2 := s.items.map (fun it =>
        if it.status == .pending then (syncQueueItem (outcome it.id) it).2 else it)
      let syncedCount := (pendingItems.filter (fun it => outcome it.id)).length
      let failedCount := pendingItems.length - syncedCount
      ({ synced := syncedCount, failed := failedCount },
       { syncStatus := if failedCount = 0 then .success else .error
         items := items2 })

/-- Observable network and timer activity of uploadMediaChunked. -/
inductive ChunkEvent
  | send (chunkIndex : Nat) (attemptNo : Nat)
  | wait (seconds : Nat)
  | progress (bytesUploaded totalBytes : Nat)
deriving DecidableEq, Repr

/-- The inner retry loop of uploadMediaChunked for one chunk.  The fuel
argument is the value of the retries variable; ok gives the verdict of
the fetch for a given chunk index and 1-based attempt number.  On
success the cumulative end offset is reported through onProgress; on
failure retries is decremented, and the loop either throws (retries 0)
or waits 2 ^ (3 - retries) seconds and tries again. -/
def attemptChunk (ok : Nat → Nat → Bool) (fileSize chunkIndex : Nat) :
    Nat → Nat → List ChunkEvent × Bool
  | 0, _ => ([], false)
  | r + 1, attemptNo =>
    if ok chunkIndex attemptNo then
      ([.send chunkIndex attemptNo,
        .progress (chunkEnd fileSize chunkIndex) fileSize], true)
    else if r = 0 then
      ([.send chunkIndex attemptNo], false)
    else
      let rest := attemptChunk ok fileSize chunkIndex r (attemptNo + 1)
      (.send chunkIndex attemptNo :: .wait (2 ^ (3 - r)) :: rest.1, rest.2)

/-- The outer chunk loop of uploadMediaChunked, from a given chunk index
with a given number of chunks remaining: each chunk runs its retry loop
with retries 3 starting at attempt 1; a chunk failure aborts the loop
(the thrown error propagates), a success moves to the next index. -/
def uploadChunksFrom (ok : Nat → Nat → Bool) (fileSize : Nat) :
    Nat → Nat → List ChunkEvent × Bool
  | _, 0 => ([], true)
  | chunkIndex, remaining + 1 =>
    let c := attemptChunk ok fileSize chunkIndex 3 1
    if c.2 then
      let rest := uploadChunksFrom ok fileSize (chunkIndex + 1) remaining
      (c.1 ++ rest.1, rest.2)
    else
      (c.1, false)

/-- uploadMediaChunked from api.js, restricted to its chunk phase: the
trace of sends, waits and progress reports over all totalChunks chunks
starting at index 0, and whether the chunk phase completed (in the
source, completion is followed by the finalize call; failure is the
thrown chunk-exhaustion error). -/
def uploadMediaChunked (ok : Nat → Nat → Bool) (fileSize : Nat) :
    List ChunkEvent × Bool :=
  uploadChunksFrom ok fileSize 0 (totalChunks fileSize)

/-- The chunk indices of the send events of a trace, in order. -/
def sendIndices (evs : List ChunkEvent) : List Nat :=
  evs.filterMap (fun e =>
    match e with
    | .send i _ => some i
    | _ => none)

/-- Whether some of the three attempts at a chunk succeeds. -/
def chunkSucceeds (ok : Nat → Nat → Bool) (chunkIndex : Nat) : Bool :=
  ok chunkIndex 1 || ok chunkIndex 2 || ok chunkIndex 3

/-- The listener-registry state of sync.js: the module-level syncStatus
and syncListeners variables, plus the ordered log of every callback
invocation made so far (callback identity paired with the status it was
called with). -/
structure ListenerState where
  syncStatus : SyncStatus
  listeners : List Nat
  log : List (Nat × SyncStatus)
deriving DecidableEq, Repr

/-- onSyncStatusChange from sync.js: push the callback, then invoke it
immediately with the current status. -/
def onSyncStatusChange (cb : Nat) (s : ListenerState) : ListenerState :=
  { s with
    listeners := s.listeners ++ [cb]
    log := s.log ++ [(cb, s.syncStatus)] }

/-- notifySyncStatusChange from sync.js: set the status, then invoke
every registered listener with the new status, in registration order. -/
def notifySyncStatusChange (status : SyncStatus) (s : ListenerState) : ListenerState :=
  { s with
    syncStatus := status
    log := s.log ++ s.listeners.map (fun cb => (cb, status)) }

/-! Concrete instances used by counterexamples and witnesses. -/

/-- Two one-byte files submitted together. -/
def c1Files : List MediaFile :=
  [{ name := "a.jpg", size := 1 }, { name := "b.jpg", size := 1 }]

/-- A write oracle under which createRecord (write 0) and the first
enqueueMedia (write 1) succeed while the second enqueueMedia fails. -/
def c1WriteOk : Nat → Bool :=
  fun k => decide (k ≤ 1)

/-- Enqueueing the two files into an empty store with ample storage
budget while the second media write fails. -/
def c1Out : EnqueueOutcome :=
  enqueueSubmission 100 c1Files 7 c1WriteOk { records := [], queue := [] }

/-- A queue item in the terminal failed state: attempts has reached the
default maxAttempts of 5. -/
def exhaustedItemExample : QueueItem :=
  { id := 9
    submissionId := 4
    fileName := "clip.mp4"
    fileSize := 2048
    status := .failed
    attempts := 5
    maxAttempts := 5
    error := some "HTTP 500"
    useChunked := false
    uploadProgress := 0
    bytesUploaded := 0 }

/-- A record with zero child queue items, not yet marked synced. -/
def childlessRecordExample : Record :=
  { id := 1, mediaCount := 0, synced := false }

/-- A pending queue item used in coordinator-state examples. -/
def pendingItemExample : QueueItem :=
  { id := 1
    submissionId := 1
    fileName := "a.jpg"
    fileSize := 3
    status := .pending
    attempts := 0
    maxAttempts := 5
    error := none
    useChunked := false
    uploadProgress := 0
    bytesUploaded := 0 }

/-- A coordinator state in which a pass is already running. -/
def c3State : CoordinatorState :=
  { syncStatus := .syncing, items := [pendingItemExample] }

/-- A transfer verdict oracle under which only item 1 succeeds. -/
def c7Outcome : Nat → Bool :=
  fun id => decide (id = 1)

/-- An idle coordinator state holding two pending items and one already
synced item. -/
def c7State : CoordinatorState :=
  { syncStatus := .idle
    items := [pendingItemExample,
              { pendingItemExample with id := 2 },
              { pendingItemExample with id := 3, status := .synced }] }

/-! Theorems. -/

/-- C1 (code bug): enqueue is not atomic.  When the storage budget
suffices but a durable-store write fails mid-batch, the source has no
compensating rollback: on the concrete input of two one-byte files with
the second enqueueMedia write failing, enqueueSubmission throws, yet the
Record (claiming two media files) and one lone Queue Item remain
persisted — the Record is left with fewer children than files supplied,
contradicting the claim that a failed enqueue persists nothing. -/
theorem claim_C1_enqueue_not_atomic :
    c1Out.result = .error .storeWriteFailed ∧
    c1Out.store.records = [{ id := 7, mediaCount := 2, synced := false }] ∧
    c1Out.store.queue.length = 1 ∧
    c1Files.length = 2 := by
  refine ⟨rfl, rfl, rfl, rfl⟩

/-- C4 (code bug): the retry command never reaches exhausted items.  A
failed item with attempts equal to maxAttempts — the only kind of failed
item the coordinator produces — is left completely unchanged by
retryFailedItems, because its filter demands attempts strictly below
maxAttempts; the claim instead requires the item to be reset to pending
with its error cleared. -/
theorem claim_C4_retry_misses_exhausted :
    exhaustedItemExample.status = .failed ∧
    exhaustedItemExample.attempts = exhaustedItemExample.maxAttempts ∧
    retryFailedItems [exhaustedItemExample] = [exhaustedItemExample] ∧
    (retryFailedItems [exhaustedItemExample]).map QueueItem.status = [.failed] := by
  refine ⟨rfl, rfl, ?_, ?_⟩ <;>
    simp [retryFailedItems, retryFailedStep, exhaustedItemExample]

/-- C5 counterexample: reconciliation on a record with zero child queue
items sets its synced flag to true — the every-child-synced test is
vacuously true on the empty list — refuting the claim that the flag
remains false. -/
theorem claim_C5_counterexample :
    (checkAndUpdateRecordSyncStatus [] childlessRecordExample).synced = true := by
  simp [checkAndUpdateRecordSyncStatus]

/-- C5 (amended): for every Record with zero child Queue Items, the
reconciliation operation sets its synced flag to true, because the
all-children-synced check is vacuously true on the empty child list. -/
theorem claim_C5_childless_record_marked_synced (rec : Record) :
    checkAndUpdateRecordSyncStatus [] rec = { rec with synced := true } := by
  simp [checkAndUpdateRecordSyncStatus]

/-- C3: the single-flight guard.  If syncQueue is invoked while the sync
status is syncing, the call returns zero counts and the coordinator
state — in particular every queue item, its attempt counter and its
status — is completely unchanged. -/
theorem claim_C3_single_flight (online : Bool) (outcome : Nat → Bool)
    (s : CoordinatorState) (h : s.syncStatus = .syncing) :
    syncQueue online outcome s = ({ synced := 0, failed := 0 }, s) := by
  unfold syncQueue
  cases online with
  | false => simp
  | true => simp [h]

/-- Witness for C3: the guard observed on a concrete syncing state
holding one pending item. -/
theorem claim_C3_single_flight_witness :
    syncQueue true (fun _ => true) c3State = ({ synced := 0, failed := 0 }, c3State) :=
  claim_C3_single_flight true (fun _ => true) c3State rfl

/-- C10: subscribing via onSyncStatusChange makes exactly one immediate
callback invocation, carrying the current status, before any subsequent
change (the status itself is untouched); and a later status change
invokes every registered callback — the new subscriber included — with
the new status, in registration order. -/
theorem claim_C10_listener_contract (s : ListenerState) (cb : Nat) (status : SyncStatus) :
    (onSyncStatusChange cb s).log.drop s.log.length = [(cb, s.syncStatus)] ∧
    (onSyncStatusChange cb s).syncStatus = s.syncStatus ∧
    (notifySyncStatusChange status (onSyncStatusChange cb s)).log.drop
        (onSyncStatusChange cb s).log.length
      = (s.listeners ++ [cb]).map (fun c => (c, status)) ∧
    (cb, status) ∈ (notifySyncStatusChange status (onSyncStatusChange cb s)).log.drop
        (onSyncStatusChange cb s).log.length := by
  refine ⟨?_, rfl, ?_, ?_⟩
  · simp [onSyncStatusChange]
  · simp [notifySyncStatusChange, onSyncStatusChange, List.drop_left]
  · simp [notifySyncStatusChange, onSyncStatusChange, List.drop_left]

/-- Every reachable queue item satisfies the attempt-counter invariant:
the attempts stay within the ceiling, a pending item always has room for
one more attempt, and a failed item has exhausted the ceiling. -/
theorem reachable_ItemInv (it : QueueItem) (h : Reachable it) : ItemInv it := by
  induction h with
  | enqueued id submissionId f =>
      simp [ItemInv, enqueuedItem, enqueueMedia, jsOrNat]
  | beginAttempt it hr hp ih =>
      obtain ⟨h1, h2, h3⟩ := ih
      have hlt := h2 hp
      refine ⟨?_, ?_, ?_⟩ <;> (simp [beginUpload]; try omega)
  | uploadSucceeded it hr hp ih =>
      obtain ⟨h1, h2, h3⟩ := ih
      refine ⟨?_, ?_, ?_⟩ <;> (simp [markSynced]; try omega)
  | uploadFailed it msg hr hp ih =>
      obtain ⟨h1, h2, h3⟩ := ih
      by_cases hc : it.attempts < it.maxAttempts
      · refine ⟨h1, fun _ => hc, ?_⟩
        simp [markFailure, hc]
      · refine ⟨h1, ?_, fun _ => ?_⟩
        · simp [markFailure, hc]
        · simp only [markFailure]
          omega
  | progressPersisted it bytesUploaded totalBytes hr hp ih =>
      obtain ⟨h1, h2, h3⟩ := ih
      exact ⟨h1, h2, h3⟩
  | wholeProgress it hr hp ih =>
      obtain ⟨h1, h2, h3⟩ := ih
      exact ⟨h1, h2, h3⟩
  | retried it hr ih =>
      obtain ⟨h1, h2, h3⟩ := ih
      by_cases hc : it.status = .failed ∧ it.attempts < it.maxAttempts
      · have he : retryFailedStep it = { it with status := .pending, error := none } := by
          simp [retryFailedStep, hc]
        rw [he]
        exact ⟨h1, fun _ => hc.2, by simp⟩
      · have he : retryFailedStep it = it := by
          simp [retryFailedStep, hc]
        rw [he]
        exact ⟨h1, h2, h3⟩

/-- C2: in every state reachable via enqueue and the coordinator
transitions, the attempt counter satisfies 0 ≤ attempts ≤ maxAttempts,
and status failed implies attempts = maxAttempts. -/
theorem claim_C2_attempts_invariant (it : QueueItem) (h : Reachable it) :
    0 ≤ it.attempts ∧ it.attempts ≤ it.maxAttempts ∧
    (it.status = .failed → it.attempts = it.maxAttempts) := by
  obtain ⟨h1, _, h3⟩ := reachable_ItemInv it h
  exact ⟨Nat.zero_le _, h1, h3⟩

/-- Witness for C2: the invariant observed on a freshly enqueued item. -/
theorem claim_C2_attempts_invariant_witness :
    0 ≤ (enqueuedItem 1 1 { name := "a.jpg", size := 100 }).attempts ∧
    (enqueuedItem 1 1 { name := "a.jpg", size := 100 }).attempts ≤
      (enqueuedItem 1 1 { name := "a.jpg", size := 100 }).maxAttempts ∧
    ((enqueuedItem 1 1 { name := "a.jpg", size := 100 }).status = .failed →
      (enqueuedItem 1 1 { name := "a.jpg", size := 100 }).attempts =
        (enqueuedItem 1 1 { name := "a.jpg", size := 100 }).maxAttempts) :=
  claim_C2_attempts_invariant _
    (Reachable.enqueued 1 1 { name := "a.jpg", size := 100 })

/-- The chunking flag of a reachable item always equals the size-based
default for its stored file size: it is set that way at enqueue time and
no coordinator transition touches it. -/
theorem reachable_chunkFlag (it : QueueItem) (h : Reachable it) :
    it.useChunked = shouldUseChunkedUpload it.fileSize := by
  induction h with
  | enqueued id submissionId f =>
      simp [enqueuedItem, enqueueMedia]
  | beginAttempt it hr hp ih => simpa [beginUpload] using ih
  | uploadSucceeded it hr hp ih => simpa [markSynced] using ih
  | uploadFailed it msg hr hp ih => simpa [markFailure] using ih
  | progressPersisted it bytesUploaded totalBytes hr hp ih =>
      simpa [progressUpdate] using ih
  | wholeProgress it hr hp ih => simpa [wholeUploadProgress] using ih
  | retried it hr ih =>
      by_cases hc : it.status = .failed ∧ it.attempts < it.maxAttempts <;>
        simpa [retryFailedStep, hc] using ih

/-- C9: on every attempt at a reachable item, the transfer mode actually
used equals the chunking flag stored at enqueue time — the recomputed
size-based default can never override it, because the stored flag is
itself exactly the size threshold test on the stored file size. -/
theorem claim_C9_mode_fixed_at_enqueue (it : QueueItem) (h : Reachable it) :
    useChunkedForAttempt it = it.useChunked ∧
    it.useChunked = shouldUseChunkedUpload it.fileSize := by
  have hc := reachable_chunkFlag it h
  refine ⟨?_, hc⟩
  simp [useChunkedForAttempt, hc]

/-- Splitting a list by a Boolean predicate preserves its length. -/
theorem length_filter_add_length_filter_not {α : Type} (p : α → Bool) (l : List α) :
    (l.filter p).length + (l.filter fun a => !p a).length = l.length := by
  induction l with
  | nil => rfl
  | cons a l ih =>
      cases hp : p a <;> simp [List.filter_cons, hp] <;> omega

/-- C7: the transfer failure of one item is never thrown out of syncQueue.
In a pass that actually runs (online, no pass in flight), the returned
counts always sum to the number of pending items fetched at the start,
the failed count is exactly the number of pending items whose transfer
fails, every pending item — the failing ones included — is driven
through syncQueueItem and its updated state persisted, and every other
item is untouched. -/
theorem claim_C7_failures_isolated (outcome : Nat → Bool) (s : CoordinatorState)
    (h : s.syncStatus ≠ .syncing) :
    (syncQueue true outcome s).1.synced + (syncQueue true outcome s).1.failed =
      (s.items.filter fun it => it.status == .pending).length ∧
    (syncQueue true outcome s).1.failed =
      ((s.items.filter fun it => it.status == .pending).filter
        fun it => !outcome it.id).length ∧
    (∀ it ∈ s.items, it.status = .pending →
      (syncQueueItem (outcome it.id) it).2 ∈ (syncQueue true outcome s).2.items) ∧
    (∀ it ∈ s.items, it.status ≠ .pending → it ∈ (syncQueue true outcome s).2.items) := by
  have hfil := length_filter_add_length_filter_not (fun it => outcome it.id)
    (s.items.filter fun it => it.status == .pending)
  have hle : ((s.items.filter fun it => it.status == .pending).filter
      fun it => outcome it.id).length ≤
      (s.items.filter fun it => it.status == .pending).length :=
    List.length_filter_le _ _
  by_cases he : ((s.items.filter fun it => it.status == .pending).isEmpty = true)
  · have hnil : s.items.filter (fun it => it.status == .pending) = [] :=
      List.isEmpty_iff.mp he
    refine ⟨?_, ?_, ?_, ?_⟩
    · simp [syncQueue, h, he, hnil]
    · simp [syncQueue, h, he, hnil]
    · intro it hmem hst
      exfalso
      have hin : it ∈ s.items.filter fun it => it.status == .pending :=
        List.mem_filter.mpr ⟨hmem, by simp [hst]⟩
      rw [hnil] at hin
      simp at hin
    · intro it hmem _
      simpa [syncQueue, h, he] using hmem
  · simp only [List.filter_filter] at hfil hle
    have hitems : (syncQueue true outcome s).2.items = s.items.map
        (fun it => if it.status == .pending then (syncQueueItem (outcome it.id) it).2 else it) := by
      simp [syncQueue, h, he]
    refine ⟨?_, ?_, ?_, ?_⟩
    · simp [syncQueue, h, he]
      omega
    · simp [syncQueue, h, he]
      omega
    · intro it hmem hst
      rw [hitems]
      refine List.mem_map.mpr ⟨it, hmem, ?_⟩
      simp [hst]
    · intro it hmem hst
      rw [hitems]
      refine List.mem_map.mpr ⟨it, hmem, ?_⟩
      simp [hst]

/-- Witness for C7: a pass over an idle state with two pending items,
one succeeding and one failing. -/
theorem claim_C7_failures_isolated_witness :
    c7State.syncStatus ≠ .syncing ∧
    ((syncQueue true c7Outcome c7State).1.synced + (syncQueue true c7Outcome c7State).1.failed =
      (c7State.items.filter fun it => it.status == .pending).length ∧
    (syncQueue true c7Outcome c7State).1.failed =
      ((c7State.items.filter fun it => it.status == .pending).filter
        fun it => !c7Outcome it.id).length ∧
    (∀ it ∈ c7State.items, it.status = .pending →
      (syncQueueItem (c7Outcome it.id) it).2 ∈ (syncQueue true c7Outcome c7State).2.items) ∧
    (∀ it ∈ c7State.items, it.status ≠ .pending →
      it ∈ (syncQueue true c7Outcome c7State).2.items)) :=
  ⟨by decide, claim_C7_failures_isolated c7Outcome c7State (by decide)⟩

/-- Witness for C9: the fixed mode observed on an enqueued 11 MiB item,
whose chunking flag is true. -/
theorem claim_C9_mode_fixed_at_enqueue_witness :
    useChunkedForAttempt (enqueuedItem 3 1 { name := "big.mp4", size := 11534336 }) =
      (enqueuedItem 3 1 { name := "big.mp4", size := 11534336 }).useChunked ∧
    (enqueuedItem 3 1 { name := "big.mp4", size := 11534336 }).useChunked =
      shouldUseChunkedUpload (enqueuedItem 3 1 { name := "big.mp4", size := 11534336 }).fileSize :=
  claim_C9_mode_fixed_at_enqueue _
    (Reachable.enqueued 3 1 { name := "big.mp4", size := 11534336 })

/-- Galois characterization of the chunk count: it is the least number
of chunks whose combined capacity covers the file. -/
theorem totalChunks_le_iff (fileSize m : Nat) :
    totalChunks fileSize ≤ m ↔ fileSize ≤ m * CHUNK_SIZE := by
  unfold totalChunks
  rw [Nat.div_le_iff_le_mul_add_pred (by decide : 0 < CHUNK_SIZE)]
  simp only [CHUNK_SIZE]
  omega

/-- The chunk count computed by uploadMediaChunked is the exact rational
ceiling of fileSize / CHUNK_SIZE. -/
theorem totalChunks_eq_ceil (fileSize : Nat) (hS : 0 < fileSize) :
    (totalChunks fileSize : ℤ) = ⌈(fileSize : ℚ) / (CHUNK_SIZE : ℚ)⌉ := by
  have hC : (0 : ℚ) < (CHUNK_SIZE : ℚ) := by norm_num [CHUNK_SIZE]
  have h1 : fileSize ≤ totalChunks fileSize * CHUNK_SIZE :=
    (totalChunks_le_iff fileSize (totalChunks fileSize)).mp le_rfl
  have h0 : 0 < totalChunks fileSize := by
    by_contra hz
    push_neg at hz
    have := (totalChunks_le_iff fileSize 0).mp (by omega)
    omega
  have h2 : ¬ fileSize ≤ (totalChunks fileSize - 1) * CHUNK_SIZE := by
    intro hle
    have := (totalChunks_le_iff fileSize (totalChunks fileSize - 1)).mpr hle
    omega
  symm
  rw [Int.ceil_eq_iff]
  constructor
  · rw [lt_div_iff₀ hC]
    have h2lt : (totalChunks fileSize - 1) * CHUNK_SIZE < fileSize := by omega
    have hcast : ((totalChunks fileSize : ℤ) : ℚ) - 1 =
        ((totalChunks fileSize - 1 : ℕ) : ℚ) := by
      rw [Nat.cast_sub h0]
      push_cast
      ring
    rw [hcast]
    exact_mod_cast h2lt
  · rw [div_le_iff₀ hC]
    exact_mod_cast h1

/-- The end offset of each chunk is the minimum of the next chunk
boundary and the file size. -/
theorem chunkEnd_eq_min (fileSize i : Nat) :
    chunkEnd fileSize i = min ((i + 1) * CHUNK_SIZE) fileSize := by
  simp only [chunkEnd, chunkStart, CHUNK_SIZE]
  omega

/-- Every chunk ends within the file. -/
theorem chunkEnd_le (fileSize i : Nat) : chunkEnd fileSize i ≤ fileSize :=
  min_le_right _ _

/-- The persisted progress percentage is always within 0 and 100 once
the reported bytes do not exceed the total. -/
theorem progressPercent_bounds (b t : Nat) (hb : b ≤ t) :
    0 ≤ progressPercent b t ∧ progressPercent b t ≤ 100 := by
  unfold progressPercent jsRound
  constructor
  · apply Int.le_floor.mpr
    push_cast
    positivity
  · have hx : (b : ℚ) / (t : ℚ) * 100 + 1 / 2 < 101 := by
      rcases Nat.eq_zero_or_pos t with ht | ht
      · subst ht
        simp
        norm_num
      · have hone : (b : ℚ) / (t : ℚ) ≤ 1 := by
          rw [div_le_one (by positivity)]
          exact_mod_cast hb
        have hmul : (b : ℚ) / (t : ℚ) * 100 ≤ 1 * 100 :=
          mul_le_mul_of_nonneg_right hone (by norm_num)
        linarith
    have hfl : ⌊(b : ℚ) / (t : ℚ) * 100 + 1 / 2⌋ < 101 := Int.floor_lt.mpr (by exact_mod_cast hx)
    omega

/-- Every progress report emitted inside the retry loop of one chunk
carries the end offset of that chunk and the file size. -/
theorem attemptChunk_progress_mem (ok : Nat → Nat → Bool) (fileSize i : Nat) :
    ∀ r a b t, ChunkEvent.progress b t ∈ (attemptChunk ok fileSize i r a).1 →
      b = chunkEnd fileSize i ∧ t = fileSize := by
  intro r
  induction r with
  | zero =>
      intro a b t h
      simp [attemptChunk] at h
  | succ r ih =>
      intro a b t h
      by_cases h1 : ok i a
      · simp [attemptChunk, h1] at h
        exact ⟨h.1, h.2⟩
      · by_cases h0 : r = 0
        · subst h0
          simp [attemptChunk, h1] at h
        · simp [attemptChunk, h1, h0] at h
          exact ih (a + 1) b t (by simpa using h)

/-- Every progress report of the chunk loop from a given index belongs
to one of the chunks it processes. -/
theorem uploadChunksFrom_progress_mem (ok : Nat → Nat → Bool) (fileSize : Nat) :
    ∀ rem idx b t, ChunkEvent.progress b t ∈ (uploadChunksFrom ok fileSize idx rem).1 →
      ∃ i, idx ≤ i ∧ i < idx + rem ∧ b = chunkEnd fileSize i ∧ t = fileSize := by
  intro rem
  induction rem with
  | zero =>
      intro idx b t h
      simp [uploadChunksFrom] at h
  | succ rem ih =>
      intro idx b t h
      by_cases hc : (attemptChunk ok fileSize idx 3 1).2
      · simp only [uploadChunksFrom, hc, if_true, List.mem_append] at h
        rcases h with h | h
        · obtain ⟨hb, ht⟩ := attemptChunk_progress_mem ok fileSize idx 3 1 b t h
          exact ⟨idx, le_rfl, by omega, hb, ht⟩
        · obtain ⟨i, hi1, hi2, hb, ht⟩ := ih (idx + 1) b t h
          exact ⟨i, by omega, by omega, hb, ht⟩
      · simp only [uploadChunksFrom, hc, if_false] at h
        obtain ⟨hb, ht⟩ := attemptChunk_progress_mem ok fileSize idx 3 1 b t (by simpa [hc] using h)
        exact ⟨idx, le_rfl, by omega, hb, ht⟩

/-- C6: chunk arithmetic and progress.  For a file of positive size S
with the fixed 5 MiB chunk size C: the chunked path computes totalChunks
as the ceiling of S / C; chunk i ends at min((i+1)C, S) (starting at
iC); every progress report emitted by the chunk loop carries the
cumulative end offset min((i+1)C, S) of the chunk just finished together
with total S; and the persisted percentage is the JavaScript rounding of
bytesUploaded / totalBytes * 100 and lies within 0 and 100. -/
theorem claim_C6_chunk_math (fileSize : Nat) (hS : 0 < fileSize) :
    (totalChunks fileSize : ℤ) = ⌈(fileSize : ℚ) / (CHUNK_SIZE : ℚ)⌉ ∧
    (∀ i, chunkStart i = i * CHUNK_SIZE) ∧
    (∀ i, chunkEnd fileSize i = min ((i + 1) * CHUNK_SIZE) fileSize) ∧
    (∀ ok b t, ChunkEvent.progress b t ∈ (uploadMediaChunked ok fileSize).1 →
      t = fileSize ∧
      (∃ i, i < totalChunks fileSize ∧ b = chunkEnd fileSize i) ∧
      progressPercent b t = jsRound ((b : ℚ) / (t : ℚ) * 100) ∧
      0 ≤ progressPercent b t ∧ progressPercent b t ≤ 100) := by
  refine ⟨totalChunks_eq_ceil fileSize hS, fun i => rfl, chunkEnd_eq_min fileSize, ?_⟩
  intro ok b t h
  obtain ⟨i, _, hi2, hb, ht⟩ :=
    uploadChunksFrom_progress_mem ok fileSize (totalChunks fileSize) 0 b t h
  have hble : b ≤ t := by
    rw [hb, ht]
    exact chunkEnd_le fileSize i
  obtain ⟨hp0, hp100⟩ := progressPercent_bounds b t hble
  exact ⟨ht, ⟨i, by omega, hb⟩, rfl, hp0, hp100⟩

/-- Witness for C6: the chunk arithmetic observed on a 12 MiB file. -/
theorem claim_C6_chunk_math_witness :
    0 < 12 * 1024 * 1024 ∧
    ((totalChunks (12 * 1024 * 1024) : ℤ) =
        ⌈((12 * 1024 * 1024 : Nat) : ℚ) / (CHUNK_SIZE : ℚ)⌉ ∧
    (∀ i, chunkStart i = i * CHUNK_SIZE) ∧
    (∀ i, chunkEnd (12 * 1024 * 1024) i = min ((i + 1) * CHUNK_SIZE) (12 * 1024 * 1024)) ∧
    (∀ ok b t, ChunkEvent.progress b t ∈ (uploadMediaChunked ok (12 * 1024 * 1024)).1 →
      t = 12 * 1024 * 1024 ∧
      (∃ i, i < totalChunks (12 * 1024 * 1024) ∧ b = chunkEnd (12 * 1024 * 1024) i) ∧
      progressPercent b t = jsRound ((b : ℚ) / (t : ℚ) * 100) ∧
      0 ≤ progressPercent b t ∧ progressPercent b t ≤ 100)) :=
  ⟨by norm_num, claim_C6_chunk_math (12 * 1024 * 1024) (by norm_num)⟩

/-- Exhaustive characterization of the retry loop for one chunk at its
actual entry point (retries 3, attempt 1): at most three sends, a wait
of 2 ^ a seconds after the a-th failure, success reporting the chunk end
offset, and failure after the third failed send. -/
theorem attemptChunk_three (ok : Nat → Nat → Bool) (fileSize i : Nat) :
    attemptChunk ok fileSize i 3 1 =
      if ok i 1 then
        ([.send i 1, .progress (chunkEnd fileSize i) fileSize], true)
      else if ok i 2 then
        ([.send i 1, .wait 2, .send i 2,
          .progress (chunkEnd fileSize i) fileSize], true)
      else if ok i 3 then
        ([.send i 1, .wait 2, .send i 2, .wait 4, .send i 3,
          .progress (chunkEnd fileSize i) fileSize], true)
      else
        ([.send i 1, .wait 2, .send i 2, .wait 4, .send i 3], false) := by
  by_cases h1 : ok i 1 <;> by_cases h2 : ok i 2 <;> by_cases h3 : ok i 3 <;>
    simp [attemptChunk, h1, h2, h3]

/-- The retry loop of a chunk completes exactly when one of its three
attempts succeeds. -/
theorem attemptChunk_verdict (ok : Nat → Nat → Bool) (fileSize i : Nat) :
    (attemptChunk ok fileSize i 3 1).2 = chunkSucceeds ok i := by
  rw [attemptChunk_three]
  by_cases h1 : ok i 1 <;> by_cases h2 : ok i 2 <;> by_cases h3 : ok i 3 <;>
    simp [chunkSucceeds, h1, h2, h3]

/-- sendIndices distributes over list append. -/
theorem sendIndices_append (l m : List ChunkEvent) :
    sendIndices (l ++ m) = sendIndices l ++ sendIndices m :=
  List.filterMap_append l m _

/-- All sends of the retry loop of one chunk carry that same index, and
there are at most three of them. -/
theorem attemptChunk_sends (ok : Nat → Nat → Bool) (fileSize i : Nat) :
    (∀ j ∈ sendIndices (attemptChunk ok fileSize i 3 1).1, j = i) ∧
    (sendIndices (attemptChunk ok fileSize i 3 1).1).length ≤ 3 := by
  rw [attemptChunk_three]
  by_cases h1 : ok i 1 <;> by_cases h2 : ok i 2 <;> by_cases h3 : ok i 3 <;>
    simp [sendIndices, h1, h2, h3]

/-- Every send of the chunk loop from a given index targets that index
or a later one. -/
theorem uploadChunksFrom_sends_ge (ok : Nat → Nat → Bool) (fileSize : Nat) :
    ∀ rem idx j, j ∈ sendIndices (uploadChunksFrom ok fileSize idx rem).1 → idx ≤ j := by
  intro rem
  induction rem with
  | zero =>
      intro idx j h
      simp [uploadChunksFrom, sendIndices] at h
  | succ rem ih =>
      intro idx j h
      by_cases hc : (attemptChunk ok fileSize idx 3 1).2
      · simp only [uploadChunksFrom, hc, if_true, sendIndices_append,
          List.mem_append] at h
        rcases h with h | h
        · exact le_of_eq ((attemptChunk_sends ok fileSize idx).1 j h).symm
        · have := ih (idx + 1) j h
          omega
      · simp only [uploadChunksFrom, hc, if_false] at h
        exact le_of_eq ((attemptChunk_sends ok fileSize idx).1 j (by simpa [hc] using h)).symm

/-- A list all of whose elements are equal is pairwise ordered. -/
theorem pairwise_le_of_all_eq (i : Nat) :
    ∀ l : List Nat, (∀ j ∈ l, j = i) → List.Pairwise (· ≤ ·) l := by
  intro l
  induction l with
  | nil => intro _; exact List.Pairwise.nil
  | cons a l ih =>
      intro h
      refine List.Pairwise.cons ?_ (ih fun j hj => h j (List.mem_cons_of_mem a hj))
      intro b hb
      rw [h a (List.mem_cons_self a l), h b (List.mem_cons_of_mem a hb)]

/-- The sends of the chunk loop are emitted in non-decreasing index
order: retries repeat the current index, and the loop never returns to
an earlier chunk. -/
theorem uploadChunksFrom_sends_sorted (ok : Nat → Nat → Bool) (fileSize : Nat) :
    ∀ rem idx, List.Pairwise (· ≤ ·) (sendIndices (uploadChunksFrom ok fileSize idx rem).1) := by
  intro rem
  induction rem with
  | zero =>
      intro idx
      simp [uploadChunksFrom, sendIndices]
  | succ rem ih =>
      intro idx
      by_cases hc : (attemptChunk ok fileSize idx 3 1).2
      · simp only [uploadChunksFrom, hc, if_true, sendIndices_append]
        rw [List.pairwise_append]
        refine ⟨pairwise_le_of_all_eq idx _ (attemptChunk_sends ok fileSize idx).1,
          ih (idx + 1), ?_⟩
        intro a ha b hb
        have ha2 := (attemptChunk_sends ok fileSize idx).1 a ha
        have hb2 := uploadChunksFrom_sends_ge ok fileSize rem (idx + 1) b hb
        omega
      · simp only [uploadChunksFrom, hc, if_false]
        exact pairwise_le_of_all_eq idx _ (attemptChunk_sends ok fileSize idx).1

/-- No chunk index is sent more than three times across the whole chunk
loop. -/
theorem uploadChunksFrom_count_le (ok : Nat → Nat → Bool) (fileSize : Nat) :
    ∀ rem idx j, (sendIndices (uploadChunksFrom ok fileSize idx rem).1).count j ≤ 3 := by
  intro rem
  induction rem with
  | zero =>
      intro idx j
      simp [uploadChunksFrom, sendIndices]
  | succ rem ih =>
      intro idx j
      have hcnt1 : (sendIndices (attemptChunk ok fileSize idx 3 1).1).count j ≤ 3 :=
        le_trans (List.count_le_length j _) (attemptChunk_sends ok fileSize idx).2
      by_cases hc : (attemptChunk ok fileSize idx 3 1).2
      · simp only [uploadChunksFrom, hc, if_true, sendIndices_append, List.count_append]
        by_cases hj : j = idx
        · have hz : (sendIndices (uploadChunksFrom ok fileSize (idx + 1) rem).1).count j = 0 := by
            rw [List.count_eq_zero]
            intro hmem
            have := uploadChunksFrom_sends_ge ok fileSize rem (idx + 1) j hmem
            omega
          omega
        · have hz : (sendIndices (attemptChunk ok fileSize idx 3 1).1).count j = 0 := by
            rw [List.count_eq_zero]
            intro hmem
            exact hj ((attemptChunk_sends ok fileSize idx).1 j hmem)
          have := ih (idx + 1) j
          omega
      · simp only [uploadChunksFrom, hc, if_false]
        exact hcnt1

/-- The chunk loop from a given index fails exactly when some chunk in
its range exhausts all three attempts while every earlier chunk in the
range eventually succeeds. -/
theorem uploadChunksFrom_verdict (ok : Nat → Nat → Bool) (fileSize : Nat) :
    ∀ rem idx, ((uploadChunksFrom ok fileSize idx rem).2 = false ↔
      ∃ k, idx ≤ k ∧ k < idx + rem ∧ chunkSucceeds ok k = false ∧
        ∀ j, idx ≤ j → j < k → chunkSucceeds ok j = true) := by
  intro rem
  induction rem with
  | zero =>
      intro idx
      constructor
      · intro h
        simp [uploadChunksFrom] at h
      · rintro ⟨k, h1, h2, _, _⟩
        omega
  | succ rem ih =>
      intro idx
      by_cases hc : (attemptChunk ok fileSize idx 3 1).2
      · have hcs : chunkSucceeds ok idx = true := by
          rw [← attemptChunk_verdict ok fileSize idx]
          exact hc
        simp only [uploadChunksFrom, hc, if_true]
        rw [ih (idx + 1)]
        constructor
        · rintro ⟨k, h1, h2, hkf, hall⟩
          refine ⟨k, by omega, by omega, hkf, ?_⟩
          intro j hj1 hj2
          by_cases hj : j = idx
          · rw [hj]
            exact hcs
          · exact hall j (by omega) hj2
        · rintro ⟨k, h1, h2, hkf, hall⟩
          have hki : k ≠ idx := by
            intro he
            rw [he, hcs] at hkf
            exact Bool.true_eq_false.mp hkf
          refine ⟨k, by omega, by omega, hkf, ?_⟩
          intro j hj1 hj2
          exact hall j (by omega) hj2
      · have hcs : chunkSucceeds ok idx = false := by
          rw [← attemptChunk_verdict ok fileSize idx]
          simp [hc]
        simp only [uploadChunksFrom, hc, if_false]
        constructor
        · intro _
          exact ⟨idx, le_rfl, by omega, hcs, fun j hj1 hj2 => by omega⟩
        · intro _
          rfl

/-- C8: in the chunked path, chunks are sent in strictly increasing
index order (retries repeat the current index and a later failure never
re-sends an earlier, already successful chunk); every chunk is attempted
at most three times; after the a-th failure of a chunk the loop waits
2 ^ a seconds before attempt a + 1, and after the third failure none;
and the whole item transfer is declared failed exactly when some chunk
exhausts its three attempts (every earlier chunk having succeeded). -/
theorem claim_C8_chunk_retry (ok : Nat → Nat → Bool) (fileSize : Nat) :
    (∀ i, attemptChunk ok fileSize i 3 1 =
      if ok i 1 then
        ([.send i 1, .progress (chunkEnd fileSize i) fileSize], true)
      else if ok i 2 then
        ([.send i 1, .wait 2, .send i 2,
          .progress (chunkEnd fileSize i) fileSize], true)
      else if ok i 3 then
        ([.send i 1, .wait 2, .send i 2, .wait 4, .send i 3,
          .progress (chunkEnd fileSize i) fileSize], true)
      else
        ([.send i 1, .wait 2, .send i 2, .wait 4, .send i 3], false)) ∧
    List.Pairwise (· ≤ ·) (sendIndices (uploadMediaChunked ok fileSize).1) ∧
    (∀ i, (sendIndices (uploadMediaChunked ok fileSize).1).count i ≤ 3) ∧
    ((uploadMediaChunked ok fileSize).2 = false ↔
      ∃ i, i < totalChunks fileSize ∧ chunkSucceeds ok i = false ∧
        ∀ j, j < i → chunkSucceeds ok j = true) := by
  refine ⟨attemptChunk_three ok fileSize,
    uploadChunksFrom_sends_sorted ok fileSize (totalChunks fileSize) 0,
    fun i => uploadChunksFrom_count_le ok fileSize (totalChunks fileSize) 0 i, ?_⟩
  rw [uploadMediaChunked, uploadChunksFrom_verdict ok fileSize (totalChunks fileSize) 0]
  constructor
  · rintro ⟨k, _, h2, hkf, hall⟩
    exact ⟨k, by omega, hkf, fun j hj => hall j (Nat.zero_le j) hj⟩
  · rintro ⟨k, h1, hkf, hall⟩
    exact ⟨k, Nat.zero_le k, by omega, hkf, fun j _ hj => hall j hj⟩

end OfflineMediaPWA
